import Mathlib

/-
Verification development for the gorq query-plan engine (package plans,
with the newer Statement-based compiler as the canonical generation).

The SQL text produced by the compiler is modelled as a list of tokens:
ordinary text fragments and occurrences of the dialect-neutral
bind-variable placeholder BindVarPlaceholder ("%s").  Rendering a token
list concatenates the fragments and prints the placeholder for each
bind token, which is exactly the string the Go code accumulates in its
bytes.Buffer.  Go error values are modelled by the structured type QErr;
each constructor corresponds to one distinct error value created by the
source (the message text is recorded in comments).
-/

namespace Gorq

/-- BindVarPlaceholder is used as a placeholder string for bindVar
strings (source: plans, const BindVarPlaceholder = "%s"). -/
def BindVarPlaceholder : String := "%s"

/-- A token of compiled SQL text: a raw text fragment, or one occurrence
of the bind-variable placeholder written by the compiler. -/
inductive Tok where
  | str (s : String)
  | bind
deriving DecidableEq

/-- Literal argument values carried in the positional argument list
(Go interface values; the claims only need strings and integers). -/
inductive Lit where
  | s (v : String)
  | i (v : Int)
deriving DecidableEq

/-- Structured model of the error values produced by the source.  Each
constructor stands for one distinct Go error; the original message text
is noted next to each constructor. -/
inductive QErr where
  /-- gorp: Cannot find a field matching the passed in pointer (with the
  pointer and value rendered into the message). -/
  | unresolvedField (addr : Nat)
  /-- gorp: Cannot run queries against transient columns -/
  | transientColumn
  /-- All query targets must be pointer types -/
  | notPointer
  /-- gorp: Cannot create query plan - no struct found to map to -/
  | noStruct
  /-- No fields in the target struct are mappable. -/
  | noQueryableFields
  /-- A query target must be a pointer to struct -/
  | notPtrToStruct
  /-- No references found to join with -/
  | noReferences
  /-- Stands for the unbounded selectTarget recursion in argOrColumn,
  which does not terminate in the Go source; the claims only exercise
  fuel-independent cases. -/
  | recursionLimit
  /-- An error returned by the execution transport. -/
  | transport (msg : String)
deriving DecidableEq

/-- Text of a single token when the token list is rendered to the string
the Go code stores in the statement buffer. -/
def tokText : Tok → String
  | .str s => s
  | .bind => BindVarPlaceholder

/-- Rendering of a token list: the concatenation the bytes.Buffer holds. -/
def renderToks : List Tok → String
  | [] => ""
  | t :: ts => tokText t ++ renderToks ts

/-- Number of bind-variable placeholder occurrences in a token list. -/
def countBinds : List Tok → Nat
  | [] => 0
  | Tok.bind :: ts => countBinds ts + 1
  | _ :: ts => countBinds ts

/-- A Statement is a generated SQL statement: the query text (as tokens)
and the ordered argument list (source: plans.Statement). -/
structure Statement where
  query : List Tok
  args : List Lit
deriving DecidableEq

/-- Token-level single-occurrence substitution: turns the first
placeholder token into the raw text v.  This is the claim-side device
used to state positional correspondence; the model of strings.Replace
itself is goReplaceFirst below, which re-scans the whole evolving
string and can therefore also match inside substituted or raw text. -/
def replaceFirstBind : List Tok → String → List Tok
  | [], _ => []
  | Tok.bind :: ts, v => Tok.str v :: ts
  | t :: ts, v => t :: replaceFirstBind ts v

/-- Direct description of the sequential substitution the claim asserts:
the i-th supplied bind variable replaces the i-th placeholder occurrence
in left-to-right order, and occurrences beyond the supplied variables
stay. -/
def replaceBinds : List Tok → List String → List Tok
  | toks, [] => toks
  | [], _ :: _ => []
  | Tok.bind :: ts, v :: vs => Tok.str v :: replaceBinds ts vs
  | t :: ts, v :: vs => t :: replaceBinds ts (v :: vs)

/-- One strings.Replace(s, pat, rep, 1) step at character level: scan s
left to right and replace the leftmost occurrence of pat by rep, leaving
s unchanged when pat does not occur (mirrors the Go standard library
behavior for a non-empty pattern). -/
def replaceFirstChars (pat rep : List Char) : List Char → List Char
  | [] => []
  | c :: cs =>
    if pat.isPrefixOf (c :: cs) then rep ++ List.drop pat.length (c :: cs)
    else c :: replaceFirstChars pat rep cs

/-- strings.Replace(s, pat, rep, 1) on strings. -/
def goReplaceFirst (s pat rep : String) : String :=
  String.mk (replaceFirstChars pat.data rep.data s.data)

/-- The characters of the rendered token list. -/
def renderChars : List Tok → List Char
  | [] => []
  | t :: ts => (tokText t).data ++ renderChars ts

/-- True when the string does not contain the percent character, so it
can neither contain nor help form an occurrence of the placeholder
substring "%s". -/
def percentFree (s : String) : Bool :=
  s.data.all (fun c => c != '%')

/-- True when a token is a placeholder or a percent-free text fragment. -/
def tokPercentFree : Tok → Bool
  | .str s => percentFree s
  | .bind => true

/-- Statement.Query (source: part_004 lines 19-25): renders the stored
query text, then for each supplied bind variable runs
strings.Replace(query, BindVarPlaceholder, v, 1) on the evolving string,
re-scanning it from the start each time.  The statement itself is read
through a copy of the buffer, so it is left unchanged; the model is
pure. -/
def statementQuery (s : Statement) (bindVars : List String) : String :=
  bindVars.foldl (fun q v => goReplaceFirst q BindVarPlaceholder v) (renderToks s.query)

/-- Go interface values passed to the plan builder and the compiler:
a pointer to a mapped struct field (identified by its address token),
a literal value, or a value wrapped by a filters.SqlWrapper (an external
interface; WrapSql is modelled as surrounding text).  Values of the
MultiSqlWrapper interface are not exercised by any claim and are not
modelled. -/
inductive Value where
  | fieldPtr (addr : Nat)
  | lit (v : Lit)
  | wrap (pre post : String) (inner : Value)
deriving DecidableEq

/-- The parts of gorp.ColumnMap that the plans package reads: the column
name, the Transient flag, whether the Go struct field is exported
(unexported fields are skipped by mapColumns), whether ReferencedBy is
non-empty, and the JoinAlias (source: gorp metadata provider, treated as
given data). -/
structure ColumnMap where
  columnName : String
  transient : Bool
  exported : Bool
  referencedBy : Bool
  joinAlias : String
deriving DecidableEq

/-- One entry of the struct column map (source: plans.fieldColumnMap in
mapping.go).  field is the address token of the struct field;
selectTarget normally equals the field itself and may be redirected to a
wrapped expression.  The parentMap, parent and join members (which serve
the cache-serialization walk and the lazy JoinOp callback, neither
exercised by the claims) are not modelled. -/
structure FieldColumnMap where
  field : Nat
  selectTarget : Value
  column : ColumnMap
  aliasName : String
  pfx : String
  quotedTable : String
  quotedColumn : String
  doSelect : Bool
deriving DecidableEq

/-- The gorp.TableMap data read by the plans package. -/
structure TableMap where
  schemaName : String
  tableName : String
  columns : List ColumnMap
deriving DecidableEq

/-- Dialect operations used by the compiler (external interface).  The
optional nonstandard limiter is modelled as the prefix and suffix that
interfaces.NonstandardLimiter.Limit wraps around its placeholder
argument (for example MySQL uses prefix "LIMIT " and empty suffix);
limiter = none is a standard-compliant dialect. -/
structure Dialect where
  quoteField : String → String
  quotedTableForQuery : String → String → String
  bindVar : Nat → String
  limiter : Option (String × String)

/-- The ordered struct column map of one query target
(source: plans.structColumnMap). -/
def StructColumnMap : Type := List FieldColumnMap

/-- joinMapForPointer: first entry whose address token equals the passed
pointer; a descriptive unresolved-field error if none matches
(source: part_004 lines 297-306). -/
def joinMapForPointer (structMap : List FieldColumnMap) (fieldPtr : Nat) :
    Except QErr FieldColumnMap :=
  match structMap.find? (fun m => m.field == fieldPtr) with
  | some m => .ok m
  | none => .error (QErr.unresolvedField fieldPtr)

/-- fieldMapForPointer: like joinMapForPointer but additionally fails
with the distinct transient-column error when the matched column is
marked transient (source: part_004 lines 308-319). -/
def fieldMapForPointer (structMap : List FieldColumnMap) (fieldPtr : Nat) :
    Except QErr FieldColumnMap :=
  match joinMapForPointer structMap fieldPtr with
  | .error e => .error e
  | .ok m => if m.column.transient then .error QErr.transientColumn else .ok m

/-- LocateColumn: pre-quoted column name for a mapped field pointer
(source: part_004 lines 276-282). -/
def LocateColumn (structMap : List FieldColumnMap) (fieldPtr : Nat) :
    Except QErr String :=
  match fieldMapForPointer structMap fieldPtr with
  | .error e => .error e
  | .ok m => .ok m.quotedColumn

/-- LocateTableAndColumn: pre-quoted table.column string for a mapped
field pointer (source: part_004 lines 289-295). -/
def LocateTableAndColumn (structMap : List FieldColumnMap) (fieldPtr : Nat) :
    Except QErr String :=
  match fieldMapForPointer structMap fieldPtr with
  | .error e => .error e
  | .ok m => .ok (m.quotedTable ++ "." ++ m.quotedColumn)

/-- Modelled from the spec: the filters package is not under src, so the
filter tree is modelled from spec section 4.3 plus the referenceFilter
that is in src (part_004 lines 2412-2428).  A comparison filter holds a
left operand (normally a field pointer), an operator text and a right
operand; reference carries a pre-built clause; andF and orF are the
composable AND/OR lists.  Further leaf variants (IS NULL, truthiness,
IN) are not exercised by the claims. -/
inductive Filter where
  | comparison (lhs : Value) (op : String) (rhs : Value)
  | reference (clause : String)
  | andF (subs : List Filter)
  | orF (subs : List Filter)

/-- Modelled from the spec: filters.Equal (external filters package)
builds a column = value comparison; QueryPlan.Equal delegates to it. -/
def Filter.equal (fieldPtr : Nat) (value : Value) : Filter :=
  Filter.comparison (Value.fieldPtr fieldPtr) "=" value

mutual

/-- Modelled from the spec: ActualValues of a filter lists, in
left-to-right order, every operand that the surrounding compiler must
resolve through argOrColumn before the filter renders itself. -/
def Filter.actualValues : Filter → List Value
  | .comparison l _ r => [l, r]
  | .reference _ => []
  | .andF subs => actualValuesList subs
  | .orF subs => actualValuesList subs

def actualValuesList : List Filter → List Value
  | [] => []
  | f :: fs => f.actualValues ++ actualValuesList fs

end

/-- Joins token fragments with a separator (the strings.Join shape used
when clauses are concatenated with a textual separator). -/
def joinSepParts (sep : List Tok) : List (List Tok) → List Tok
  | [] => []
  | [x] => x
  | x :: xs => x ++ sep ++ joinSepParts sep xs

mutual

/-- Modelled from the spec: Where(vals...) renders the filter as token
fragments, consuming the already-resolved operand renderings positionally
in the same order ActualValues produced them; returns the fragment and
the remaining (unconsumed) renderings. -/
def Filter.whereConsume : Filter → List (List Tok) → List Tok × List (List Tok)
  | .comparison _ op _, vals =>
    let l := vals.headD []
    let vals1 := vals.tail
    let r := vals1.headD []
    (l ++ [Tok.str (" " ++ op ++ " ")] ++ r, vals1.tail)
  | .reference clause, vals => ([Tok.str clause], vals)
  | .andF subs, vals =>
    let (parts, rest) := whereConsumeList subs vals
    (joinSepParts [Tok.str " AND "] parts, rest)
  | .orF subs, vals =>
    let (parts, rest) := whereConsumeList subs vals
    (Tok.str "(" :: (joinSepParts [Tok.str " OR "] parts ++ [Tok.str ")"]), rest)

def whereConsumeList : List Filter → List (List Tok) → List (List Tok) × List (List Tok)
  | [], vals => ([], vals)
  | f :: fs, vals =>
    let (t, rest) := f.whereConsume vals
    let (ts, rest1) := whereConsumeList fs rest
    (t :: ts, rest1)

end

/-- Modelled from the spec: a JoinFilter of the external filters
package, its shape visible from its use in src: join type text,
pre-quoted join table, pre-quoted alias, and the accumulated ON
constraints. -/
structure JoinFilter where
  joinType : String
  quotedJoinTable : String
  quotedAlias : String
  constraints : List Filter

/-- The filters.MultiFilter interface value stored in QueryPlan.filters:
either an AndFilter root (after Where) or an open JoinFilter (while a
join is being composed). -/
inductive MultiFilter where
  | andRoot (subs : List Filter)
  | joinRoot (j : JoinFilter)

/-- MultiFilter.Add appends filters to the AND root or to the open join
constraints. -/
def MultiFilter.add (mf : MultiFilter) (fs : List Filter) : MultiFilter :=
  match mf with
  | .andRoot subs => .andRoot (subs ++ fs)
  | .joinRoot j => .joinRoot { j with constraints := j.constraints ++ fs }

/-- ActualValues of the stored MultiFilter. -/
def MultiFilter.actualValues : MultiFilter → List Value
  | .andRoot subs => actualValuesList subs
  | .joinRoot j => actualValuesList j.constraints

/-- Modelled from the spec: Where(vals...) of the stored MultiFilter;
the AND root joins its sub-fragments with " AND ". -/
def MultiFilter.whereToks : MultiFilter → List (List Tok) → List Tok
  | .andRoot subs, vals => (joinSepParts [Tok.str " AND "] (whereConsumeList subs vals).1)
  | .joinRoot j, vals => (joinSepParts [Tok.str " AND "] (whereConsumeList j.constraints vals).1)

/-- One ORDER BY entry (source: plans.order): the field pointer or
wrapper, and the requested direction text. -/
structure Order where
  fieldOrWrapper : Value
  direction : String

/-- Modelled from the spec: the OrderBy rendering used by the Statement
compiler (the new-generation order.OrderBy(val) string function is not
under src); it appends the direction text after the rendered column when
a direction was requested. -/
def Order.orderToks (o : Order) (val : List Tok) : List Tok :=
  val ++ (if o.direction = "" then [] else [Tok.str (" " ++ o.direction)])

/-- The mutable query state (source: plans.QueryPlan, the generation at
part_004 lines 1529-1567).  The executor and cache handles are passed to
the finalizing-action models separately; the dbMap is represented by its
Dialect.  The target reflect.Value and the lastRefs/tables bookkeeping
that the claims do not read are kept only where needed. -/
structure QueryPlan where
  Errors : List QErr
  table : TableMap
  quotedTable : String
  colMap : List FieldColumnMap
  joins : List JoinFilter
  lastRefs : List Filter
  assignCols : List String
  assignBindVars : List String
  assignArgs : List Lit
  filters : Option MultiFilter
  orderBy : List Order
  groupBy : List String
  limit : Int
  offset : Int
  cachingDisabled : Bool
  dialect : Dialect

/-- storeJoin: if the pending filter root is a JoinFilter, move it to
the stored join list and clear the filter root (source: part_004 lines
1643-1651). -/
def storeJoin (plan : QueryPlan) : QueryPlan :=
  match plan.filters with
  | some (.joinRoot j) => { plan with joins := plan.joins ++ [j], filters := none }
  | _ => plan

/-- QuotedTable: the cached quoted table string, or the dialect-quoted
schema-qualified table name (source: part_004 lines 2077-2082; the
memoizing write is modelled as the pure read). -/
def QuotedTable (plan : QueryPlan) : String :=
  if plan.quotedTable = "" then
    plan.dialect.quotedTableForQuery plan.table.schemaName plan.table.tableName
  else plan.quotedTable

/-- argOrColumn (source: part_004 lines 2089-2126): a field pointer
renders as its pre-quoted table.column (failing for unmapped or
transient fields), unless its select target was redirected, in which
case argOrColumn recurses on the target; a wrapper recurses on the
wrapped value and surrounds the rendering; every other value renders as
one placeholder token and is appended to the argument list.  The fuel
parameter bounds the redirect recursion, which is unbounded in the Go
source; redirect chains longer than the column map cannot terminate
there, so the default fuel (colMap length + 1) is exact for all
terminating executions. -/
def argOrColumnF (plan : QueryPlan) : Nat → Value → Except QErr (List Lit × List Tok)
  | _, .lit v => .ok ([v], [Tok.bind])
  | fuel, .wrap pre post inner =>
    match argOrColumnF plan fuel inner with
    | .error e => .error e
    | .ok (args, toks) => .ok (args, Tok.str pre :: (toks ++ [Tok.str post]))
  | fuel, .fieldPtr addr =>
    match fieldMapForPointer plan.colMap addr with
    | .error e => .error e
    | .ok m =>
      if m.selectTarget = Value.fieldPtr m.field then
        .ok ([], [Tok.str (m.quotedTable ++ "." ++ m.quotedColumn)])
      else
        match fuel with
        | 0 => .error QErr.recursionLimit
        | fuel1 + 1 => argOrColumnF plan fuel1 m.selectTarget
termination_by fuel v => (fuel, sizeOf v)

/-- argOrColumn at the default fuel. -/
def QueryPlan.argOrColumn (plan : QueryPlan) (v : Value) :
    Except QErr (List Lit × List Tok) :=
  argOrColumnF plan (plan.colMap.length + 1) v

/-- The per-operand resolution loop shared by addWhereClause and
addJoinClause: resolve each operand with argOrColumn, collecting the
renderings and appending the produced arguments in order. -/
def argOrColumnList (plan : QueryPlan) : List Value → Except QErr (List (List Tok) × List Lit)
  | [] => .ok ([], [])
  | v :: vs =>
    match plan.argOrColumn v with
    | .error e => .error e
    | .ok (args, toks) =>
      match argOrColumnList plan vs with
      | .error e => .error e
      | .ok (valsRest, argsRest) => .ok (toks :: valsRest, args ++ argsRest)

/-- addWhereClause (source: part_004 lines 101-122): resolve the filter
operands, append their arguments, and write " WHERE " followed by the
rendered filter unless the rendering is the empty string. -/
def addWhereClause (plan : QueryPlan) (st : Statement) : Except QErr Statement :=
  match plan.filters with
  | none => .ok st
  | some f =>
    match argOrColumnList plan f.actualValues with
    | .error e => .error e
    | .ok (whereVals, args) =>
      let st1 : Statement := { st with args := st.args ++ args }
      let w := f.whereToks whereVals
      if renderToks w = "" then .ok st1
      else .ok { st1 with query := st1.query ++ [Tok.str " WHERE "] ++ w }

/-- Modelled from the spec: JoinClause of a JoinFilter (external filters
package) renders " TYPE JOIN table [alias] ON constraints"; the claims
only use plans with an empty join list, so only the shape matters. -/
def JoinFilter.joinClause (j : JoinFilter) (vals : List (List Tok)) : List Tok :=
  [Tok.str (" " ++ j.joinType ++ " JOIN " ++ j.quotedJoinTable)]
    ++ (if j.quotedAlias = "" then [] else [Tok.str (" " ++ j.quotedAlias)])
    ++ [Tok.str " ON "]
    ++ joinSepParts [Tok.str " AND "] (whereConsumeList j.constraints vals).1

/-- addJoinClause (source: part_004 lines 126-143): for each stored
join, resolve its operands, append their arguments, and write the join
clause. -/
def addJoinClause (plan : QueryPlan) : List JoinFilter → Statement → Except QErr Statement
  | [], st => .ok st
  | j :: js, st =>
    match argOrColumnList plan (actualValuesList j.constraints) with
    | .error e => .error e
    | .ok (joinVals, args) =>
      addJoinClause plan js
        { query := st.query ++ j.joinClause joinVals, args := st.args ++ args }

/-- The GROUP BY clause tokens (source: part_004 lines 157-164): the
first entry is preceded by " GROUP BY ", later entries by ", ". -/
def groupByToksAux : List String → Nat → List Tok
  | [], _ => []
  | g :: gs, idx =>
    Tok.str (if idx = 0 then " GROUP BY " else ", ") :: Tok.str g :: groupByToksAux gs (idx + 1)

/-- The ORDER BY loop (source: part_004 lines 165-177): each entry is
preceded by " ORDER BY " or ", ", resolved through argOrColumn, rendered
with its direction, and its arguments appended. -/
def addOrderByAux (plan : QueryPlan) : List Order → Nat → Statement → Except QErr Statement
  | [], _, st => .ok st
  | o :: os, idx, st =>
    let st1 : Statement :=
      { st with query := st.query ++ [Tok.str (if idx = 0 then " ORDER BY " else ", ")] }
    match plan.argOrColumn o.fieldOrWrapper with
    | .error e => .error e
    | .ok (args, val) =>
      addOrderByAux plan os (idx + 1)
        { query := st1.query ++ o.orderToks val, args := st1.args ++ args }

/-- The nonstandard limit clause (source: part_004 lines 180-185): a
space, then NonstandardLimiter.Limit(BindVarPlaceholder), with the limit
value appended as the placeholder argument; empty when the dialect is
standard or the limit is not strictly positive. -/
def nsLimitClause (d : Dialect) (limit : Int) : List Tok × List Lit :=
  match d.limiter with
  | some (pre, post) =>
    if 0 < limit then
      ([Tok.str " ", Tok.str pre, Tok.bind, Tok.str post], [Lit.i limit])
    else ([], [])
  | none => ([], [])

/-- The OFFSET clause (source: part_004 lines 186-190): " OFFSET "
followed by a placeholder with the offset value as its argument; empty
when the offset is not strictly positive. -/
def offsetClause (offset : Int) : List Tok × List Lit :=
  if 0 < offset then ([Tok.str " OFFSET ", Tok.bind], [Lit.i offset]) else ([], [])

/-- The standard FETCH NEXT clause (source: part_004 lines 192-199):
" FETCH NEXT (" placeholder ") ROWS ONLY" with the limit value as the
placeholder argument; empty for nonstandard dialects or a non-positive
limit. -/
def stdLimitClause (d : Dialect) (limit : Int) : List Tok × List Lit :=
  match d.limiter with
  | some _ => ([], [])
  | none =>
    if 0 < limit then
      ([Tok.str " FETCH NEXT (", Tok.bind, Tok.str ") ROWS ONLY"], [Lit.i limit])
    else ([], [])

/-- The full limit/offset tail of the select suffix, in the emission
order of the source: nonstandard limit, then offset, then standard
FETCH NEXT. -/
def limitOffsetToks (d : Dialect) (limit offset : Int) : List Tok × List Lit :=
  ((nsLimitClause d limit).1 ++ (offsetClause offset).1 ++ (stdLimitClause d limit).1,
   (nsLimitClause d limit).2 ++ (offsetClause offset).2 ++ (stdLimitClause d limit).2)

/-- The select suffix before the limit/offset tail (source: part_004
lines 147-177): store any pending join, write " FROM " and the quoted
table, then the join clauses, the where clause, GROUP BY and ORDER BY. -/
def addSelectSuffixCore (plan0 : QueryPlan) (st : Statement) : Except QErr Statement :=
  let plan := storeJoin plan0
  let st1 : Statement :=
    { st with query := st.query ++ [Tok.str " FROM ", Tok.str (QuotedTable plan)] }
  match addJoinClause plan plan.joins st1 with
  | .error e => .error e
  | .ok st2 =>
    match addWhereClause plan st2 with
    | .error e => .error e
    | .ok st3 =>
      let st4 : Statement := { st3 with query := st3.query ++ groupByToksAux plan.groupBy 0 }
      addOrderByAux plan plan.orderBy 0 st4

/-- addSelectSuffix (source: part_004 lines 147-201): the suffix core
followed by the dialect-sensitive limit/offset tail. -/
def addSelectSuffix (plan : QueryPlan) (st : Statement) : Except QErr Statement :=
  match addSelectSuffixCore plan st with
  | .error e => .error e
  | .ok st1 =>
    let lo := limitOffsetToks plan.dialect plan.limit plan.offset
    .ok { query := st1.query ++ lo.1, args := st1.args ++ lo.2 }

/-- The per-column step of addSelectColumns (source: part_004 lines
51-95): skip unselected columns; write a comma when the absolute column
index is not zero; render the select target (the plain pre-quoted
table.column when it is the field itself, otherwise through the wrapper
cases of the source switch) and the alias. -/
def addSelectColumnsAux (plan : QueryPlan) :
    List FieldColumnMap → Nat → Statement → Except QErr Statement
  | [], _, st => .ok st
  | m :: ms, index, st =>
    if m.doSelect then
      let st1 : Statement :=
        if index ≠ 0 then { st with query := st.query ++ [Tok.str ","] } else st
      let resolved : Except QErr (List Lit × List Tok) :=
        if m.selectTarget = Value.fieldPtr m.field then
          .ok ([], [Tok.str (m.quotedTable ++ "." ++ m.quotedColumn)])
        else
          match m.selectTarget with
          | .wrap pre post inner =>
            match plan.argOrColumn inner with
            | .error e => .error e
            | .ok (args, toks) => .ok (args, Tok.str pre :: (toks ++ [Tok.str post]))
          | _ => plan.argOrColumn (Value.fieldPtr m.field)
      match resolved with
      | .error e => .error e
      | .ok (args, clause) =>
        let aliasToks : List Tok :=
          if m.aliasName ≠ "" then [Tok.str " AS ", Tok.str m.aliasName] else []
        addSelectColumnsAux plan ms (index + 1)
          { query := st1.query ++ clause ++ aliasToks, args := st1.args ++ args }
    else addSelectColumnsAux plan ms (index + 1) st

/-- addSelectColumns (source: part_004 lines 47-97): returns the first
recorded error when the error list is non-empty, otherwise renders the
selected columns. -/
def addSelectColumns (plan : QueryPlan) (st : Statement) : Except QErr Statement :=
  match plan.Errors with
  | e :: _ => .error e
  | [] => addSelectColumnsAux plan plan.colMap 0 st

/-- SelectStatement (source: part_004 lines 33-43): "SELECT ", the
column list, then the select suffix. -/
def SelectStatement (plan : QueryPlan) : Except QErr Statement :=
  match addSelectColumns plan { query := [Tok.str "SELECT "], args := [] } with
  | .error e => .error e
  | .ok st => addSelectSuffix plan st

/-- Limit sets the limit clause value (source: part_004 lines 1804-1808). -/
def QueryPlan.Limit (plan : QueryPlan) (limit : Int) : QueryPlan :=
  { plan with limit := limit }

/-- DiscardLimit discards any previously set limit (source: part_004
lines 1810-1814). -/
def DiscardLimit (plan : QueryPlan) : QueryPlan :=
  { plan with limit := 0 }

/-- Offset sets the offset clause value (source: part_004 lines
1816-1820). -/
def QueryPlan.Offset (plan : QueryPlan) (offset : Int) : QueryPlan :=
  { plan with offset := offset }

/-- DiscardOffset discards any previously set offset (source: part_004
lines 1822-1826). -/
def DiscardOffset (plan : QueryPlan) : QueryPlan :=
  { plan with offset := 0 }

/-- Filter adds filters to the current filter root (source: part_004
lines 1706-1709).  When the root is nil the Go source would fault on the
nil interface; the claims only call this after Where has installed the
AND root, so the nil case keeps the plan unchanged. -/
def filterAdd (plan : QueryPlan) (fs : List Filter) : QueryPlan :=
  { plan with filters := plan.filters.map (fun mf => mf.add fs) }

/-- Where stores any pending join filter, installs a fresh AND root and
adds the passed filters (source: part_004 lines 1693-1698). -/
def whereQ (plan : QueryPlan) (fs : List Filter) : QueryPlan :=
  let p := storeJoin plan
  filterAdd { p with filters := some (MultiFilter.andRoot []) } fs

/-- Equal adds a column = value comparison to the where clause
(source: part_004 lines 1728-1730). -/
def equalQ (plan : QueryPlan) (fieldPtr : Nat) (value : Value) : QueryPlan :=
  filterAdd plan [Filter.equal fieldPtr value]

/-- AssignQueryPlan.Assign (source: part_004 lines 2318-2328): locate
the column (recording the error and leaving the plan otherwise
unchanged on failure), then append the quoted column, the dialect bind
variable numbered by the assignment count, and the value. -/
def assignQ (plan : QueryPlan) (fieldPtr : Nat) (value : Lit) : QueryPlan :=
  match LocateColumn plan.colMap fieldPtr with
  | .error e => { plan with Errors := plan.Errors ++ [e] }
  | .ok column =>
    { plan with
      assignCols := plan.assignCols ++ [column],
      assignBindVars := plan.assignBindVars ++ [plan.dialect.bindVar plan.assignBindVars.length],
      assignArgs := plan.assignArgs ++ [value] }

/-- bindVars (source: part_004 lines 1835-1841): one dialect bind
variable per statement argument, numbered from zero. -/
def bindVarsFor (plan : QueryPlan) (st : Statement) : List String :=
  (List.range st.args.length).map plan.dialect.bindVar

/-- The execution transport results for one finalizing action (external
gorp.SqlExecutor): the combined Exec/RowsAffected outcome, the Select
outcome, and the SelectInt outcome. -/
structure Executor where
  execResult : Except QErr Int
  selectResult : Except QErr (List Lit)
  selectIntResult : Except QErr Int

/-- Observed behavior of one finalizing action: whether SQL reached the
execution transport, and the value or error returned to the caller (the
Go pair (-1, err) is modelled as the error alternative). -/
structure ExecTrace (α : Type) where
  executedSQL : Bool
  result : Except QErr α

/-- The INSERT statement text (source: part_004 lines 2133-2150):
"INSERT INTO table (cols) VALUES (bindVars)".  The source passes
statement.args, which this generation never populates, so the argument
list is empty as in the source. -/
def insertStatement (plan : QueryPlan) : Statement :=
  { query :=
      [Tok.str "INSERT INTO ",
       Tok.str (plan.dialect.quotedTableForQuery plan.table.schemaName plan.table.tableName),
       Tok.str " ("]
      ++ joinSepParts [Tok.str ", "] (plan.assignCols.map (fun c => [Tok.str c]))
      ++ [Tok.str ") VALUES ("]
      ++ joinSepParts [Tok.str ", "] (plan.assignBindVars.map (fun b => [Tok.str b]))
      ++ [Tok.str ")"],
    args := [] }

/-- The UPDATE SET prefix (source: part_004 lines 2168-2178):
"UPDATE table SET col=" with one placeholder per assignment, comma
separated. -/
def updateSetToks (plan : QueryPlan) : List Tok :=
  [Tok.str "UPDATE ",
   Tok.str (plan.dialect.quotedTableForQuery plan.table.schemaName plan.table.tableName),
   Tok.str " SET "]
  ++ joinSepParts [Tok.str ", "]
      (plan.assignCols.map (fun c => [Tok.str c, Tok.str "=", Tok.bind]))

/-- The compiled UPDATE statement (source: part_004 lines 2165-2181):
the statement starts with the assignment arguments, then the where
clause is appended. -/
def updateStatement (plan : QueryPlan) : Except QErr Statement :=
  addWhereClause plan { query := updateSetToks plan, args := plan.assignArgs }

/-- The compiled DELETE statement (source: part_004 lines 2204-2209). -/
def deleteStatement (plan : QueryPlan) : Except QErr Statement :=
  addWhereClause plan
    { query :=
        [Tok.str "DELETE FROM ",
         Tok.str (plan.dialect.quotedTableForQuery plan.table.schemaName plan.table.tableName)],
      args := [] }

/-- Insert (source: part_004 lines 2129-2158): returns the first
recorded error before building or executing anything; otherwise builds
the INSERT statement and executes it.  The cache DropEntries dispatch is
fire-and-forget and does not affect the return. -/
def InsertAction (plan : QueryPlan) (ex : Executor) : ExecTrace Unit :=
  match plan.Errors with
  | e :: _ => { executedSQL := false, result := .error e }
  | [] =>
    { executedSQL := true,
      result := match ex.execResult with
        | .error e => .error e
        | .ok _ => .ok () }

/-- Update (source: part_004 lines 2161-2197): returns the first
recorded error before executing; a where-clause compilation error also
returns without executing; otherwise executes and returns the affected
row count. -/
def UpdateAction (plan : QueryPlan) (ex : Executor) : ExecTrace Int :=
  match plan.Errors with
  | e :: _ => { executedSQL := false, result := .error e }
  | [] =>
    match updateStatement plan with
    | .error e => { executedSQL := false, result := .error e }
    | .ok _ => { executedSQL := true, result := ex.execResult }

/-- Delete (source: part_004 lines 2200-2225): same gating as Update. -/
def DeleteAction (plan : QueryPlan) (ex : Executor) : ExecTrace Int :=
  match plan.Errors with
  | e :: _ => { executedSQL := false, result := .error e }
  | [] =>
    match deleteStatement plan with
    | .error e => { executedSQL := false, result := .error e }
    | .ok _ => { executedSQL := true, result := ex.execResult }

/-- Truncate (source: part_004 lines 1829-1833): builds
"TRUNCATE TABLE table" and executes it immediately; the error list is
never consulted. -/
def TruncateAction (_plan : QueryPlan) (ex : Executor) : ExecTrace Unit :=
  { executedSQL := true,
    result := match ex.execResult with
      | .error e => .error e
      | .ok _ => .ok () }

/-- Count (source: part_004 lines 2067-2075): writes "SELECT COUNT(*)",
appends the select suffix (returning its compilation errors without
executing), then executes; the accumulated error list is never
consulted. -/
def CountAction (plan : QueryPlan) (ex : Executor) : ExecTrace Int :=
  match addSelectSuffix plan { query := [Tok.str "SELECT COUNT(*)"], args := [] } with
  | .error e => { executedSQL := false, result := .error e }
  | .ok _ => { executedSQL := true, result := ex.selectIntResult }

/-- Behavior of the external cache collaborators for one SELECT: the
cache handle and its Cacheable answer, the CacheKey computation, the
Get result, restoreFromCache, the row reconstruction
(unmarshalCachedResults), and the write path (json.Marshal and
prepareForCache).  Each is an input to the model because the cache
code is an external collaborator of the plans package. -/
structure CacheEnv where
  hasCache : Bool
  cacheable : Bool
  keyResult : Except QErr String
  getResult : Except QErr String
  restoreResult : Except QErr (List Lit)
  unmarshalResult : Except QErr (List Lit)
  marshalResult : Except QErr String
  prepareResult : Except QErr String

/-- cachedSelect (source: part_004 lines 1891-1932): nil unless a cache
is present and the table is cacheable; nil on a key computation error,
a Get error, an empty cached payload, a restore error or a
reconstruction error; otherwise the reconstructed rows. -/
def cachedSelect (_plan : QueryPlan) (env : CacheEnv) : Option (List Lit) :=
  if env.hasCache && env.cacheable then
    match env.keyResult with
    | .error _ => none
    | .ok _ =>
      match env.getResult with
      | .error _ => none
      | .ok payload =>
        if payload = "" then none
        else
          match env.restoreResult with
          | .error _ => none
          | .ok _ =>
            match env.unmarshalResult with
            | .error _ => none
            | .ok rows => some rows
  else none

/-- cacheResults (source: part_004 lines 1994-2035): silently gives up
on a key error, a marshal error or a prepareForCache error; otherwise
hands the encoded payload to the fire-and-forget cache Set.  The
returned value is the payload written, none when nothing was written. -/
def cacheResults (_plan : QueryPlan) (env : CacheEnv) : Option String :=
  match env.keyResult with
  | .error _ => none
  | .ok _ =>
    match env.marshalResult with
    | .error _ => none
    | .ok _ =>
      match env.prepareResult with
      | .error _ => none
      | .ok encoded => some encoded

/-- The full observable outcome of Select: the trace returned to the
caller and the cache payload written in the background. -/
structure SelectOutcome where
  trace : ExecTrace (List Lit)
  cacheWrite : Option String

/-- Select (source: part_004 lines 1934-1962): compile (surfacing the
first recorded error), try the cache unless caching is disabled, fall
through to the execution transport, and on success write the results
back to the cache in the background. -/
def SelectAction (plan : QueryPlan) (ex : Executor) (env : CacheEnv) : SelectOutcome :=
  match SelectStatement plan with
  | .error e => { trace := { executedSQL := false, result := .error e }, cacheWrite := none }
  | .ok _ =>
    match (if plan.cachingDisabled then none else cachedSelect plan env) with
    | some rows =>
      { trace := { executedSQL := false, result := .ok rows }, cacheWrite := none }
    | none =>
      match ex.selectResult with
      | .error e => { trace := { executedSQL := true, result := .error e }, cacheWrite := none }
      | .ok rows =>
        { trace := { executedSQL := true, result := .ok rows },
          cacheWrite :=
            if env.hasCache && env.cacheable && !plan.cachingDisabled then
              cacheResults plan env
            else none }

/-- A postgres-style standard dialect used by concrete witnesses. -/
def pgDialect : Dialect :=
  { quoteField := fun f => "\"" ++ f ++ "\"",
    quotedTableForQuery := fun sch name =>
      if sch = "" then "\"" ++ name ++ "\"" else "\"" ++ sch ++ "\".\"" ++ name ++ "\"",
    bindVar := fun i => "$" ++ toString (i + 1),
    limiter := none }

/-- A MySQL-style dialect implementing the nonstandard limiter, whose
Limit(x) is "LIMIT " followed by x. -/
def myDialect : Dialect :=
  { quoteField := fun f => "`" ++ f ++ "`",
    quotedTableForQuery := fun sch name =>
      if sch = "" then "`" ++ name ++ "`" else "`" ++ sch ++ "`.`" ++ name ++ "`",
    bindVar := fun _ => "?",
    limiter := some ("LIMIT ", "") }

/-- A concrete transient field map entry used by the C7 witness. -/
def transientEntry : FieldColumnMap :=
  { field := 3, selectTarget := Value.fieldPtr 3,
    column := { columnName := "tmp", transient := true, exported := true,
                referencedBy := false, joinAlias := "" },
    aliasName := "tmp", pfx := "", quotedTable := "\"t\"", quotedColumn := "\"tmp\"",
    doSelect := false }

/-- A minimal mapped table used by concrete plans in witnesses. -/
def tinyTable : TableMap :=
  { schemaName := "", tableName := "t",
    columns := [{ columnName := "id", transient := false, exported := true,
                  referencedBy := false, joinAlias := "" }] }

/-- A plan over tinyTable with no accumulated clauses and the given
error list. -/
def tinyPlan (errs : List QErr) : QueryPlan :=
  { Errors := errs, table := tinyTable, quotedTable := "\"t\"", colMap := [],
    joins := [], lastRefs := [], assignCols := [], assignBindVars := [],
    assignArgs := [], filters := none, orderBy := [], groupBy := [],
    limit := 0, offset := 0, cachingDisabled := true, dialect := pgDialect }

/-- An execution transport that succeeds. -/
def happyExecutor : Executor :=
  { execResult := .ok 7, selectResult := .ok [Lit.i 1], selectIntResult := .ok 5 }

/-- A cache environment with no cache attached. -/
def noCacheEnv : CacheEnv :=
  { hasCache := false, cacheable := false, keyResult := .ok "k",
    getResult := .ok "", restoreResult := .ok [], unmarshalResult := .ok [],
    marshalResult := .ok "m", prepareResult := .ok "p" }

/-- The cache-read failure cases of C8: key computation error, cache get
error, empty cached payload, unparsable payload, or reconstruction
error. -/
def cacheFailureCase (env : CacheEnv) : Prop :=
  (∃ e, env.keyResult = .error e) ∨ (∃ e, env.getResult = .error e) ∨
  env.getResult = .ok "" ∨ (∃ e, env.restoreResult = .error e) ∨
  (∃ e, env.unmarshalResult = .error e)

/-- A cache environment whose read path fails at the Get call. -/
def failingCacheEnv : CacheEnv :=
  { hasCache := true, cacheable := true, keyResult := .ok "k",
    getResult := .error (QErr.transport "memcache down"),
    restoreResult := .ok [], unmarshalResult := .ok [],
    marshalResult := .error (QErr.transport "marshal failed"),
    prepareResult := .ok "p" }

/-- The comparison filter built by calls such as Equal/Less/Greater with
a mapped left field and a literal right operand. -/
def mkComp (p : FieldColumnMap × String × Lit) : Filter :=
  Filter.comparison (Value.fieldPtr p.1.field) p.2.1 (Value.lit p.2.2)

/-- The rendered WHERE fragment of one such comparison: the pre-quoted
column, the operator, and exactly one placeholder token. -/
def fragToks (p : FieldColumnMap × String × Lit) : List Tok :=
  [Tok.str (p.1.quotedTable ++ "." ++ p.1.quotedColumn),
   Tok.str (" " ++ p.2.1 ++ " "), Tok.bind]

/-- The operand list ActualValues produces for such a comparison list. -/
def compOperands : List (FieldColumnMap × String × Lit) → List Value
  | [] => []
  | p :: ps => Value.fieldPtr p.1.field :: Value.lit p.2.2 :: compOperands ps

/-- The operand renderings argOrColumn produces for such comparisons. -/
def compVals : List (FieldColumnMap × String × Lit) → List (List Tok)
  | [] => []
  | p :: ps =>
    [Tok.str (p.1.quotedTable ++ "." ++ p.1.quotedColumn)] :: [Tok.bind] :: compVals ps

/-- The text of the selected columns when every select target is the
field itself: only raw text fragments, no placeholders, no arguments. -/
def selfColToks : List FieldColumnMap → Nat → List Tok
  | [], _ => []
  | m :: ms, idx =>
    if m.doSelect then
      (if idx ≠ 0 then [Tok.str ","] else [])
        ++ [Tok.str (m.quotedTable ++ "." ++ m.quotedColumn)]
        ++ (if m.aliasName ≠ "" then [Tok.str " AS ", Tok.str m.aliasName] else [])
        ++ selfColToks ms (idx + 1)
    else selfColToks ms (idx + 1)

/-- The mapped id column entry of the concrete people table. -/
def idEntry : FieldColumnMap :=
  { field := 1, selectTarget := Value.fieldPtr 1,
    column := { columnName := "id", transient := false, exported := true,
                referencedBy := false, joinAlias := "" },
    aliasName := "id", pfx := "", quotedTable := "\"people\"",
    quotedColumn := "\"id\"", doSelect := true }

/-- The mapped name column entry of the concrete people table. -/
def nameEntry : FieldColumnMap :=
  { field := 2, selectTarget := Value.fieldPtr 2,
    column := { columnName := "name", transient := false, exported := true,
                referencedBy := false, joinAlias := "" },
    aliasName := "name", pfx := "", quotedTable := "\"people\"",
    quotedColumn := "\"name\"", doSelect := true }

/-- The concrete people table. -/
def peopleTable : TableMap :=
  { schemaName := "", tableName := "people",
    columns := [idEntry.column, nameEntry.column] }

/-- A freshly mapped plan over the people table. -/
def peoplePlan : QueryPlan :=
  { Errors := [], table := peopleTable, quotedTable := "\"people\"",
    colMap := [idEntry, nameEntry], joins := [], lastRefs := [],
    assignCols := [], assignBindVars := [], assignArgs := [], filters := none,
    orderBy := [], groupBy := [], limit := 0, offset := 0,
    cachingDisabled := true, dialect := pgDialect }

/-- The two comparison filters of the C2 witness. -/
def c2pairs : List (FieldColumnMap × String × Lit) :=
  [(idEntry, "=", Lit.i 5), (nameEntry, "=", Lit.s "x")]

/-- The C2 witness plan: the people plan with the two comparisons as its
WHERE filters. -/
def c2plan : QueryPlan :=
  { peoplePlan with filters := some (MultiFilter.andRoot (c2pairs.map mkComp)) }

/-- The plan built by the C4 fluent chain
Assign(name, "x").Where().Equal(id, 5). -/
def c4plan : QueryPlan :=
  equalQ (whereQ (assignQ peoplePlan 2 (Lit.s "x")) []) 1 (Value.lit (Lit.i 5))

/-- The statement the C4 chain compiles to. -/
def c4stmt : Statement :=
  { query := [Tok.str "UPDATE ", Tok.str "\"people\"", Tok.str " SET ",
              Tok.str "\"name\"", Tok.str "=", Tok.bind,
              Tok.str " WHERE ",
              Tok.str "\"people\".\"id\"", Tok.str " = ", Tok.bind],
    args := [Lit.s "x", Lit.i 5] }

theorem countBinds_append (a b : List Tok) :
    countBinds (a ++ b) = countBinds a + countBinds b := by
  induction a with
  | nil => simp [countBinds]
  | cons t ts ih =>
    cases t with
    | str s => simp [countBinds, ih]
    | bind => simp [countBinds, ih]; omega

theorem replaceBinds_nil_vars (toks : List Tok) : replaceBinds toks [] = toks := by
  simp [replaceBinds]

theorem replaceBinds_nil_toks (vs : List String) : replaceBinds [] vs = [] := by
  cases vs with
  | nil => simp [replaceBinds]
  | cons v vs => simp [replaceBinds]

theorem replaceBinds_cons_str (s : String) (ts : List Tok) (vs : List String) :
    replaceBinds (Tok.str s :: ts) vs = Tok.str s :: replaceBinds ts vs := by
  cases vs with
  | nil => simp [replaceBinds]
  | cons v vs => simp [replaceBinds]

theorem replaceFirstBind_then_replaceBinds (toks : List Tok) (v : String) (vs : List String) :
    replaceBinds (replaceFirstBind toks v) vs = replaceBinds toks (v :: vs) := by
  induction toks with
  | nil => simp [replaceFirstBind, replaceBinds, replaceBinds_nil_toks]
  | cons t ts ih =>
    cases t with
    | bind => simp [replaceFirstBind, replaceBinds, replaceBinds_cons_str]
    | str s =>
      show replaceBinds (Tok.str s :: replaceFirstBind ts v) vs
          = replaceBinds (Tok.str s :: ts) (v :: vs)
      rw [replaceBinds_cons_str, ih]
      simp [replaceBinds]

theorem countBinds_replaceBinds (toks : List Tok) (vs : List String) :
    countBinds (replaceBinds toks vs)
      = countBinds toks - min vs.length (countBinds toks) := by
  induction toks generalizing vs with
  | nil =>
    cases vs <;> simp [replaceBinds, countBinds]
  | cons t ts ih =>
    cases vs with
    | nil => simp [replaceBinds_nil_vars]
    | cons v vs =>
      cases t with
      | bind =>
        simp only [replaceBinds, countBinds, List.length_cons]
        rw [ih]
        omega
      | str s =>
        simp only [replaceBinds, countBinds]
        rw [ih]

theorem renderToks_data (toks : List Tok) :
    (renderToks toks).data = renderChars toks := by
  induction toks with
  | nil => rfl
  | cons t ts ih =>
    show (tokText t ++ renderToks ts).data = (tokText t).data ++ renderChars ts
    rw [← ih]
    rfl

theorem replaceFirstChars_skip_percent_free (rep : List Char) (cs : List Char)
    (h : ∀ c ∈ cs, c ≠ '%') (rest : List Char) :
    replaceFirstChars ['%', 's'] rep (cs ++ rest)
      = cs ++ replaceFirstChars ['%', 's'] rep rest := by
  induction cs with
  | nil => rfl
  | cons c cs ih =>
    have hc : c ≠ '%' := h c (List.mem_cons_self c cs)
    have hbeq : (('%' : Char) == c) = false :=
      beq_eq_false_iff_ne.mpr (Ne.symm hc)
    show replaceFirstChars ['%', 's'] rep (c :: (cs ++ rest)) = _
    rw [replaceFirstChars]
    simp only [List.isPrefixOf, hbeq, Bool.false_and,
      ih (fun x hx => h x (List.mem_cons_of_mem c hx))]
    simp

theorem replaceFirstChars_renderChars (v : String) (toks : List Tok)
    (h : ∀ s, Tok.str s ∈ toks → percentFree s = true) :
    replaceFirstChars ['%', 's'] v.data (renderChars toks)
      = renderChars (replaceFirstBind toks v) := by
  induction toks with
  | nil => rfl
  | cons t ts ih =>
    cases t with
    | bind =>
      show replaceFirstChars ['%', 's'] v.data ('%' :: 's' :: renderChars ts)
          = renderChars (Tok.str v :: ts)
      rw [replaceFirstChars]
      simp [List.isPrefixOf, renderChars, tokText]
    | str s0 =>
      have hs0 : percentFree s0 = true := h s0 (List.mem_cons_self _ _)
      have hnp : ∀ c ∈ s0.data, c ≠ '%' := by
        intro c hc
        have := List.all_eq_true.mp hs0 c hc
        simpa using this
      show replaceFirstChars ['%', 's'] v.data (s0.data ++ renderChars ts)
          = renderChars (Tok.str s0 :: replaceFirstBind ts v)
      rw [replaceFirstChars_skip_percent_free v.data s0.data hnp,
          ih (fun s hs => h s (List.mem_cons_of_mem _ hs))]
      rfl

theorem goReplaceFirst_render (v : String) (toks : List Tok)
    (h : ∀ s, Tok.str s ∈ toks → percentFree s = true) :
    goReplaceFirst (renderToks toks) BindVarPlaceholder v
      = renderToks (replaceFirstBind toks v) := by
  unfold goReplaceFirst
  rw [renderToks_data]
  have hp : BindVarPlaceholder.data = ['%', 's'] := rfl
  rw [hp, replaceFirstChars_renderChars v toks h, ← renderToks_data]

theorem replaceFirstBind_percentFree (v : String) (hv : percentFree v = true) :
    ∀ toks : List Tok, (∀ s, Tok.str s ∈ toks → percentFree s = true) →
    ∀ s, Tok.str s ∈ replaceFirstBind toks v → percentFree s = true := by
  intro toks
  induction toks with
  | nil => intro _ s hs; cases hs
  | cons t ts ih =>
    intro h s hs
    cases t with
    | bind =>
      rcases List.mem_cons.mp hs with he | hm
      · injection he with h1
        rw [h1]
        exact hv
      · exact h s (List.mem_cons_of_mem _ hm)
    | str s0 =>
      rcases List.mem_cons.mp hs with he | hm
      · injection he with h1
        rw [h1]
        exact h s0 (List.mem_cons_self _ _)
      · exact ih (fun x hx => h x (List.mem_cons_of_mem _ hx)) s hm

theorem foldl_goReplaceFirst (vs : List String) :
    ∀ toks : List Tok,
    (∀ s, Tok.str s ∈ toks → percentFree s = true) →
    (∀ v ∈ vs, percentFree v = true) →
    vs.foldl (fun q v => goReplaceFirst q BindVarPlaceholder v) (renderToks toks)
      = renderToks (replaceBinds toks vs) := by
  induction vs with
  | nil => intro toks _ _; rw [replaceBinds_nil_vars]; rfl
  | cons v vs ih =>
    intro toks h hvs
    simp only [List.foldl_cons]
    rw [goReplaceFirst_render v toks h,
        ih (replaceFirstBind toks v)
          (replaceFirstBind_percentFree v (hvs v (List.mem_cons_self _ _)) toks h)
          (fun w hw => hvs w (List.mem_cons_of_mem _ hw)),
        replaceFirstBind_then_replaceBinds]

/-- C10 (amended): Statement.Query runs strings.Replace once per
supplied bind variable, each step replacing the leftmost occurrence of
the placeholder substring in the evolving text.  When the percent
character occurs neither in the raw text fragments of the query nor in
the supplied bind variables — so the placeholder substring occurs only
at the placeholder tokens, as with every real dialect bind syntax — the
i-th bind variable replaces the i-th placeholder occurrence in
left-to-right order (the result renders the direct positional
substitution replaceBinds), and placeholder occurrences beyond the
supplied bind variables remain in the returned text; the statement is
read through a copy of its buffer and left unchanged (the model is
pure).  When a bind variable or the raw text contains the placeholder
substring a replacement can instead land inside earlier substituted or
raw text (see the counterexample). -/
theorem c10_statement_query_positional (toks : List Tok) (args : List Lit) (vs : List String)
    (htoks : toks.all tokPercentFree = true)
    (hvs : vs.all percentFree = true) :
    statementQuery { query := toks, args := args } vs = renderToks (replaceBinds toks vs) ∧
    countBinds (replaceBinds toks vs)
      = countBinds toks - min vs.length (countBinds toks) := by
  have h1 : ∀ s, Tok.str s ∈ toks → percentFree s = true := by
    intro s hs
    have := List.all_eq_true.mp htoks _ hs
    simpa [tokPercentFree] using this
  have h2 : ∀ v ∈ vs, percentFree v = true := fun v hv => List.all_eq_true.mp hvs v hv
  exact ⟨foldl_goReplaceFirst vs toks h1 h2, countBinds_replaceBinds toks vs⟩

/-- Witness for the amended C10 at a concrete query with two
placeholders and one percent-free bind variable. -/
theorem c10_statement_query_positional_witness :
    statementQuery { query := [Tok.bind, Tok.str " ", Tok.bind], args := [] } ["$1"]
      = renderToks (replaceBinds [Tok.bind, Tok.str " ", Tok.bind] ["$1"]) :=
  (c10_statement_query_positional [Tok.bind, Tok.str " ", Tok.bind] [] ["$1"]
    (by decide) (by decide)).1

/-- Counterexample to C10 as stated: strings.Replace re-scans the
evolving string, so with query text "%s %s" and bind variables
["a%s", "b"] the second variable lands inside the first substitution and
one original placeholder survives ("ab %s"), while the claimed
positional substitution would give "a%s b"; likewise a percent split
across raw fragments ("x%" then "s ") captures a bind variable meant for
the placeholder token. -/
theorem c10_counterexample_replacement_rescans :
    statementQuery { query := [Tok.bind, Tok.str " ", Tok.bind], args := [] } ["a%s", "b"]
      = "ab %s" ∧
    renderToks (replaceBinds [Tok.bind, Tok.str " ", Tok.bind] ["a%s", "b"]) = "a%s b" ∧
    statementQuery { query := [Tok.bind, Tok.str " ", Tok.bind], args := [] } ["a%s", "b"]
      ≠ renderToks (replaceBinds [Tok.bind, Tok.str " ", Tok.bind] ["a%s", "b"]) ∧
    statementQuery { query := [Tok.str "x%", Tok.str "s ", Tok.bind], args := [] } ["A"]
      = "xA %s" ∧
    renderToks (replaceBinds [Tok.str "x%", Tok.str "s ", Tok.bind] ["A"]) = "x%s A" := by
  refine ⟨?_, ?_, ?_, ?_, ?_⟩ <;> decide

/-- C6: looking up a field pointer that was never registered in the
struct column map returns the descriptive unresolved-field error from
joinMapForPointer and fieldMapForPointer; no zero-value entry is ever
returned. -/
theorem c6_unmapped_pointer_fails (structMap : List FieldColumnMap) (fieldPtr : Nat)
    (h : ∀ m ∈ structMap, m.field ≠ fieldPtr) :
    joinMapForPointer structMap fieldPtr = .error (QErr.unresolvedField fieldPtr) ∧
    fieldMapForPointer structMap fieldPtr = .error (QErr.unresolvedField fieldPtr) ∧
    LocateColumn structMap fieldPtr = .error (QErr.unresolvedField fieldPtr) ∧
    LocateTableAndColumn structMap fieldPtr = .error (QErr.unresolvedField fieldPtr) := by
  have hf : structMap.find? (fun m => m.field == fieldPtr) = none := by
    rw [List.find?_eq_none]
    intro m hm
    simpa using h m hm
  refine ⟨?_, ?_, ?_, ?_⟩ <;>
    simp [joinMapForPointer, fieldMapForPointer, LocateColumn, LocateTableAndColumn, hf]

/-- Witness for C6 at a concrete map and pointer. -/
theorem c6_unmapped_pointer_fails_witness :
    joinMapForPointer
      [{ field := 1, selectTarget := Value.fieldPtr 1,
         column := { columnName := "id", transient := false, exported := true,
                     referencedBy := false, joinAlias := "" },
         aliasName := "id", pfx := "", quotedTable := "\"t\"", quotedColumn := "\"id\"",
         doSelect := true }] 2
      = .error (QErr.unresolvedField 2) :=
  (c6_unmapped_pointer_fails _ 2 (by decide)).1

/-- C7: a mapped field pointer whose column is transient fails in
fieldMapForPointer with the transient-column error, which LocateColumn
and LocateTableAndColumn propagate, and that error is distinct from the
unresolved-field error for every pointer. -/
theorem c7_transient_column_distinct_error (structMap : List FieldColumnMap) (fieldPtr : Nat)
    (m : FieldColumnMap)
    (h : joinMapForPointer structMap fieldPtr = .ok m)
    (ht : m.column.transient = true) :
    fieldMapForPointer structMap fieldPtr = .error QErr.transientColumn ∧
    LocateColumn structMap fieldPtr = .error QErr.transientColumn ∧
    LocateTableAndColumn structMap fieldPtr = .error QErr.transientColumn ∧
    ∀ a : Nat, QErr.transientColumn ≠ QErr.unresolvedField a := by
  refine ⟨?_, ?_, ?_, ?_⟩ <;>
    simp [fieldMapForPointer, LocateColumn, LocateTableAndColumn, h, ht]

/-- Witness for C7 at a concrete transient column. -/
theorem c7_transient_column_distinct_error_witness :
    fieldMapForPointer [transientEntry] 3 = .error QErr.transientColumn :=
  (c7_transient_column_distinct_error [transientEntry] 3 transientEntry rfl rfl).1

/-- C9: the compiled select suffix carries a limit clause (the
nonstandard LIMIT or the standard FETCH NEXT) exactly when the limit is
strictly positive and an OFFSET clause exactly when the offset is
strictly positive, and DiscardLimit produces the very same plan state as
Limit(0), so the two compile to identical statements. -/
theorem c9_limit_offset_iff_positive (d : Dialect) (l o : Int) (p : QueryPlan) :
    ((nsLimitClause d l).1 ++ (stdLimitClause d l).1 = [] ↔ ¬ 0 < l) ∧
    ((offsetClause o).1 = [] ↔ ¬ 0 < o) ∧
    DiscardLimit p = p.Limit 0 ∧
    SelectStatement (DiscardLimit p) = SelectStatement (p.Limit 0) := by
  refine ⟨?_, ?_, rfl, rfl⟩
  · cases hd : d.limiter with
    | none =>
      by_cases h0 : 0 < l <;> simp [nsLimitClause, stdLimitClause, hd, h0]
    | some pr =>
      by_cases h0 : 0 < l <;> simp [nsLimitClause, stdLimitClause, hd, h0]
  · by_cases h0 : 0 < o <;> simp [offsetClause, h0]

/-- C3: with a strictly positive limit, a dialect implementing the
nonstandard limiter emits its LIMIT clause before the OFFSET clause
while a standard dialect emits the FETCH NEXT (n) ROWS ONLY clause after
the OFFSET clause; in both cases the limit value travels as a
placeholder argument; and addSelectSuffix is exactly the suffix core
followed by this limit/offset tail. -/
theorem c3_limit_placement (d dstd : Dialect) (pre post : String) (l o : Int)
    (hd : d.limiter = some (pre, post)) (hstd : dstd.limiter = none) (hl : 0 < l) :
    limitOffsetToks d l o
      = ([Tok.str " ", Tok.str pre, Tok.bind, Tok.str post] ++ (offsetClause o).1,
         [Lit.i l] ++ (offsetClause o).2) ∧
    limitOffsetToks dstd l o
      = ((offsetClause o).1 ++ [Tok.str " FETCH NEXT (", Tok.bind, Tok.str ") ROWS ONLY"],
         (offsetClause o).2 ++ [Lit.i l]) ∧
    ∀ (plan : QueryPlan) (st st1 : Statement),
      addSelectSuffixCore plan st = .ok st1 →
      addSelectSuffix plan st
        = .ok { query := st1.query ++ (limitOffsetToks plan.dialect plan.limit plan.offset).1,
                args := st1.args ++ (limitOffsetToks plan.dialect plan.limit plan.offset).2 } := by
  refine ⟨?_, ?_, ?_⟩
  · simp [limitOffsetToks, nsLimitClause, stdLimitClause, hd, hl]
  · simp [limitOffsetToks, nsLimitClause, stdLimitClause, hstd, hl]
  · intro plan st st1 h
    simp [addSelectSuffix, h]

/-- Witness for C3 with the MySQL-style and postgres-style dialects at
limit 2, offset 3. -/
theorem c3_limit_placement_witness :
    limitOffsetToks myDialect 2 3
      = ([Tok.str " ", Tok.str "LIMIT ", Tok.bind, Tok.str "", Tok.str " OFFSET ", Tok.bind],
         [Lit.i 2, Lit.i 3]) ∧
    limitOffsetToks pgDialect 2 3
      = ([Tok.str " OFFSET ", Tok.bind,
          Tok.str " FETCH NEXT (", Tok.bind, Tok.str ") ROWS ONLY"],
         [Lit.i 3, Lit.i 2]) := by
  have h := c3_limit_placement myDialect pgDialect "LIMIT " "" 2 3 rfl rfl (by decide)
  refine ⟨?_, ?_⟩
  · rw [h.1]
    simp [offsetClause]
  · rw [h.2.1]
    simp [offsetClause]

/-- C1 (amended): while the accumulated error list is non-empty, Select,
Insert, Update and Delete return the first recorded error without
executing any SQL against the database; Truncate and Count do not
consult the error list (see the counterexample). -/
theorem c1_first_error_blocks_select_insert_update_delete
    (plan : QueryPlan) (ex : Executor) (env : CacheEnv) (e : QErr) (rest : List QErr)
    (h : plan.Errors = e :: rest) :
    SelectAction plan ex env
      = { trace := { executedSQL := false, result := .error e }, cacheWrite := none } ∧
    InsertAction plan ex = { executedSQL := false, result := .error e } ∧
    UpdateAction plan ex = { executedSQL := false, result := .error e } ∧
    DeleteAction plan ex = { executedSQL := false, result := .error e } := by
  refine ⟨?_, ?_, ?_, ?_⟩ <;>
    simp [SelectAction, SelectStatement, addSelectColumns, InsertAction,
          UpdateAction, DeleteAction, h]

/-- Witness for the amended C1 at a concrete plan carrying one error. -/
theorem c1_first_error_blocks_witness :
    UpdateAction (tinyPlan [QErr.unresolvedField 99]) happyExecutor
      = { executedSQL := false, result := .error (QErr.unresolvedField 99) } :=
  (c1_first_error_blocks_select_insert_update_delete
    (tinyPlan [QErr.unresolvedField 99]) happyExecutor noCacheEnv
    (QErr.unresolvedField 99) [] rfl).2.2.1

/-- Counterexample to C1 as stated: on a plan whose error list holds the
unresolved-field error, Truncate and Count still execute SQL against the
database and return the transport result instead of the first recorded
error. -/
theorem c1_counterexample_truncate_count_execute :
    (TruncateAction (tinyPlan [QErr.unresolvedField 99]) happyExecutor).executedSQL = true ∧
    (TruncateAction (tinyPlan [QErr.unresolvedField 99]) happyExecutor).result
      = Except.ok () ∧
    (CountAction (tinyPlan [QErr.unresolvedField 99]) happyExecutor).executedSQL = true ∧
    (CountAction (tinyPlan [QErr.unresolvedField 99]) happyExecutor).result
      = Except.ok 5 := by
  refine ⟨rfl, rfl, ?_, ?_⟩ <;> rfl

theorem cachedSelect_none_of_failure (plan : QueryPlan) (env : CacheEnv)
    (h : cacheFailureCase env) : cachedSelect plan env = none := by
  by_cases hc : env.hasCache && env.cacheable
  · rcases h with ⟨e, he⟩ | ⟨e, he⟩ | he | ⟨e, he⟩ | ⟨e, he⟩
    · simp [cachedSelect, hc, he]
    · cases hk : env.keyResult <;> simp [cachedSelect, hc, hk, he]
    · cases hk : env.keyResult <;> simp [cachedSelect, hc, hk, he]
    · cases hk : env.keyResult <;> cases hg : env.getResult <;>
        simp [cachedSelect, hc, hk, hg, he]
    · cases hk : env.keyResult <;> cases hg : env.getResult <;>
        cases hr : env.restoreResult <;> simp [cachedSelect, hc, hk, hg, hr, he]
  · simp [cachedSelect, hc]

/-- C8: for a SELECT that compiles, any failure in the cache read path
never surfaces to the caller: Select falls through to the execution
transport and returns exactly the transport result, and the outcome
returned to the caller does not depend on the cache write path (marshal
and prepare results), so cache-write failures leave the returned value
and error unchanged. -/
theorem c8_cache_failures_never_surface
    (plan : QueryPlan) (ex : Executor) (env : CacheEnv) (st : Statement)
    (hstmt : SelectStatement plan = .ok st) (hfail : cacheFailureCase env) :
    (SelectAction plan ex env).trace = { executedSQL := true, result := ex.selectResult } ∧
    ∀ m1 p1 m2 p2,
      (SelectAction plan ex { env with marshalResult := m1, prepareResult := p1 }).trace
        = (SelectAction plan ex { env with marshalResult := m2, prepareResult := p2 }).trace := by
  have hnone := cachedSelect_none_of_failure plan env hfail
  constructor
  · cases hs : ex.selectResult <;>
      simp [SelectAction, hstmt, hnone, hs]
  · intro m1 p1 m2 p2
    have hnone1 : cachedSelect plan { env with marshalResult := m1, prepareResult := p1 } = none := by
      apply cachedSelect_none_of_failure
      simpa [cacheFailureCase] using hfail
    have hnone2 : cachedSelect plan { env with marshalResult := m2, prepareResult := p2 } = none := by
      apply cachedSelect_none_of_failure
      simpa [cacheFailureCase] using hfail
    cases hs : ex.selectResult <;>
      simp [SelectAction, hstmt, hnone1, hnone2, hs]

/-- Witness for C8: a concrete cacheable plan whose cache Get fails
still returns the transport rows. -/
theorem c8_cache_failures_never_surface_witness :
    (SelectAction
      { tinyPlan [] with cachingDisabled := false } happyExecutor failingCacheEnv).trace
      = { executedSQL := true, result := Except.ok [Lit.i 1] } :=
  (c8_cache_failures_never_surface
    { tinyPlan [] with cachingDisabled := false } happyExecutor failingCacheEnv
    { query := [Tok.str "SELECT ", Tok.str " FROM ", Tok.str "\"t\""], args := [] }
    rfl (Or.inr (Or.inl ⟨QErr.transport "memcache down", rfl⟩))).1

theorem actualValuesList_map_mkComp (ps : List (FieldColumnMap × String × Lit)) :
    actualValuesList (ps.map mkComp) = compOperands ps := by
  induction ps with
  | nil => rfl
  | cons p ps ih =>
    simp [actualValuesList, Filter.actualValues, mkComp, compOperands, ih]

theorem argOrColumn_lit (plan : QueryPlan) (v : Lit) :
    plan.argOrColumn (Value.lit v) = .ok ([v], [Tok.bind]) := by
  unfold QueryPlan.argOrColumn
  simp [argOrColumnF]

theorem argOrColumn_field_self (plan : QueryPlan) (m : FieldColumnMap)
    (hres : fieldMapForPointer plan.colMap m.field = .ok m)
    (hself : m.selectTarget = Value.fieldPtr m.field) :
    plan.argOrColumn (Value.fieldPtr m.field)
      = .ok ([], [Tok.str (m.quotedTable ++ "." ++ m.quotedColumn)]) := by
  unfold QueryPlan.argOrColumn
  simp [argOrColumnF, hres, hself]

theorem argOrColumnList_comps (plan : QueryPlan)
    (ps : List (FieldColumnMap × String × Lit))
    (hres : ∀ p ∈ ps, fieldMapForPointer plan.colMap p.1.field = .ok p.1)
    (hself : ∀ p ∈ ps, p.1.selectTarget = Value.fieldPtr p.1.field) :
    argOrColumnList plan (compOperands ps)
      = .ok (compVals ps, ps.map (fun p => p.2.2)) := by
  induction ps with
  | nil => rfl
  | cons p ps ih =>
    have h1 := argOrColumn_field_self plan p.1
      (hres p (List.mem_cons_self p ps)) (hself p (List.mem_cons_self p ps))
    have h2 := ih (fun q hq => hres q (List.mem_cons_of_mem p hq))
      (fun q hq => hself q (List.mem_cons_of_mem p hq))
    simp [compOperands, compVals, argOrColumnList, h1, argOrColumn_lit, h2]

theorem whereConsumeList_comps (ps : List (FieldColumnMap × String × Lit))
    (extra : List (List Tok)) :
    whereConsumeList (ps.map mkComp) (compVals ps ++ extra)
      = (ps.map fragToks, extra) := by
  induction ps with
  | nil => rfl
  | cons p ps ih =>
    simp [compVals, whereConsumeList, Filter.whereConsume, mkComp, fragToks, ih]

theorem countBinds_fragToks (p : FieldColumnMap × String × Lit) :
    countBinds (fragToks p) = 1 := rfl

theorem countBinds_joinSep_frags (ps : List (FieldColumnMap × String × Lit)) :
    countBinds (joinSepParts [Tok.str " AND "] (ps.map fragToks)) = ps.length := by
  induction ps with
  | nil => rfl
  | cons p ps ih =>
    cases ps with
    | nil => simp [joinSepParts, countBinds_fragToks]
    | cons q qs =>
      have hstep :
          joinSepParts [Tok.str " AND "] ((p :: q :: qs).map fragToks)
            = fragToks p ++ ([Tok.str " AND "]
                ++ joinSepParts [Tok.str " AND "] ((q :: qs).map fragToks)) := by
        simp [joinSepParts]
      rw [hstep, countBinds_append, countBinds_append, countBinds_fragToks, ih]
      simp [countBinds]
      omega

theorem bind_mem_joinSep_frags (p : FieldColumnMap × String × Lit)
    (ps : List (FieldColumnMap × String × Lit)) :
    Tok.bind ∈ joinSepParts [Tok.str " AND "] ((p :: ps).map fragToks) := by
  cases ps with
  | nil => simp [joinSepParts, fragToks]
  | cons q qs => simp [joinSepParts, fragToks]

theorem two_le_renderToks_length :
    ∀ toks : List Tok, Tok.bind ∈ toks → 2 ≤ (renderToks toks).length := by
  intro toks
  induction toks with
  | nil => intro h; cases h
  | cons t ts ih =>
    intro h
    have hr : renderToks (t :: ts) = tokText t ++ renderToks ts := rfl
    rw [hr, String.length_append]
    rcases List.mem_cons.mp h with he | hm
    · subst he
      have h2 : (tokText Tok.bind).length = 2 := rfl
      omega
    · have := ih hm
      omega

theorem renderToks_ne_empty (toks : List Tok) (h : Tok.bind ∈ toks) :
    ¬ renderToks toks = "" := by
  intro he
  have hlen := two_le_renderToks_length toks h
  rw [he] at hlen
  have h0 : ("" : String).length = 0 := rfl
  omega

theorem countBinds_selfColToks (ms : List FieldColumnMap) (idx : Nat) :
    countBinds (selfColToks ms idx) = 0 := by
  induction ms generalizing idx with
  | nil => rfl
  | cons m ms ih =>
    by_cases hds : m.doSelect <;>
      by_cases hal : m.aliasName ≠ "" <;>
        by_cases hidx : idx ≠ 0 <;>
          simp [selfColToks, hds, hal, hidx, countBinds_append, countBinds, ih]

theorem addSelectColumnsAux_self (plan : QueryPlan) (ms : List FieldColumnMap)
    (hmem : ∀ m ∈ ms, m.selectTarget = Value.fieldPtr m.field) :
    ∀ (idx : Nat) (st : Statement),
      addSelectColumnsAux plan ms idx st
        = .ok { query := st.query ++ selfColToks ms idx, args := st.args } := by
  induction ms with
  | nil => intro idx st; simp [addSelectColumnsAux, selfColToks]
  | cons m ms ih =>
    intro idx st
    have hm : m.selectTarget = Value.fieldPtr m.field := hmem m (List.mem_cons_self m ms)
    have hrest : ∀ x ∈ ms, x.selectTarget = Value.fieldPtr x.field :=
      fun x hx => hmem x (List.mem_cons_of_mem m hx)
    by_cases hds : m.doSelect <;>
      by_cases hidx : idx ≠ 0 <;>
        by_cases hal : m.aliasName ≠ "" <;>
          simp [addSelectColumnsAux, hds, hm, hidx, hal, ih hrest, selfColToks]

theorem mem_of_fieldMapForPointer_ok (sm : List FieldColumnMap) (ptr : Nat)
    (m : FieldColumnMap) (h : fieldMapForPointer sm ptr = .ok m) : m ∈ sm := by
  unfold fieldMapForPointer at h
  cases hf : joinMapForPointer sm ptr with
  | error e => rw [hf] at h; cases h
  | ok m2 =>
    rw [hf] at h
    by_cases ht : m2.column.transient
    · simp [ht] at h
    · simp [ht] at h
      subst h
      unfold joinMapForPointer at hf
      cases hff : sm.find? (fun x => x.field == ptr) with
      | none => rw [hff] at hf; cases hf
      | some m3 =>
        rw [hff] at hf
        cases hf
        exact List.mem_of_find?_eq_some hff

theorem addWhereClause_comps (plan : QueryPlan)
    (ps : List (FieldColumnMap × String × Lit))
    (hflt : plan.filters = some (MultiFilter.andRoot (ps.map mkComp)))
    (hres : ∀ p ∈ ps, fieldMapForPointer plan.colMap p.1.field = .ok p.1)
    (hself : ∀ p ∈ ps, p.1.selectTarget = Value.fieldPtr p.1.field)
    (hne : ps ≠ []) (st : Statement) :
    addWhereClause plan st = .ok
      { query := st.query ++ [Tok.str " WHERE "]
          ++ joinSepParts [Tok.str " AND "] (ps.map fragToks),
        args := st.args ++ ps.map (fun p => p.2.2) } := by
  obtain ⟨p, ps1, rfl⟩ : ∃ p ps1, ps = p :: ps1 := by
    cases ps with
    | nil => exact absurd rfl hne
    | cons a b => exact ⟨a, b, rfl⟩
  have hvals := argOrColumnList_comps plan (p :: ps1) hres hself
  have hw := whereConsumeList_comps (p :: ps1) []
  rw [List.append_nil] at hw
  have hrender := renderToks_ne_empty _ (bind_mem_joinSep_frags p ps1)
  have hav := actualValuesList_map_mkComp (p :: ps1)
  simp only [List.map_cons] at hav hvals hw hrender
  simp [addWhereClause, hflt, MultiFilter.actualValues, hav, hvals,
        MultiFilter.whereToks, hw, hrender]

/-- C2: for a plan whose accumulated filters are N comparison filters
with mapped non-transient left fields and literal right operands (and no
other argument-producing clauses), compiling a SELECT succeeds; the text
before the WHERE clause carries zero placeholder tokens, the WHERE
clause is the AND-joined fragments of the N comparisons, each holding
exactly one placeholder token in filter order, so the clause has exactly
N placeholders; and the argument list is exactly the N right-hand
literals in the same order, giving the positional correspondence between
the i-th placeholder and the i-th argument. -/
theorem c2_select_placeholders_match_args (plan : QueryPlan)
    (ps : List (FieldColumnMap × String × Lit))
    (hErr : plan.Errors = [])
    (hselfAll : ∀ m ∈ plan.colMap, m.selectTarget = Value.fieldPtr m.field)
    (hjoins : plan.joins = [])
    (hgroup : plan.groupBy = [])
    (horder : plan.orderBy = [])
    (hlim : plan.limit = 0)
    (hoff : plan.offset = 0)
    (hflt : plan.filters = some (MultiFilter.andRoot (ps.map mkComp)))
    (hres : ∀ p ∈ ps, fieldMapForPointer plan.colMap p.1.field = .ok p.1)
    (hne : ps ≠ []) :
    ∃ colToks, countBinds colToks = 0 ∧
      SelectStatement plan = .ok
        { query := colToks
            ++ [Tok.str " FROM ", Tok.str (QuotedTable plan), Tok.str " WHERE "]
            ++ joinSepParts [Tok.str " AND "] (ps.map fragToks),
          args := ps.map (fun p => p.2.2) } ∧
      countBinds (joinSepParts [Tok.str " AND "] (ps.map fragToks)) = ps.length := by
  have hself : ∀ p ∈ ps, p.1.selectTarget = Value.fieldPtr p.1.field := fun p hp =>
    hselfAll p.1 (mem_of_fieldMapForPointer_ok plan.colMap p.1.field p.1 (hres p hp))
  refine ⟨[Tok.str "SELECT "] ++ selfColToks plan.colMap 0, ?_, ?_,
    countBinds_joinSep_frags ps⟩
  · rw [countBinds_append, countBinds_selfColToks]
    rfl
  · have hsj : storeJoin plan = plan := by simp [storeJoin, hflt]
    have hlo : limitOffsetToks plan.dialect plan.limit plan.offset = ([], []) := by
      rw [hlim, hoff]
      cases hl : plan.dialect.limiter <;>
        simp [limitOffsetToks, nsLimitClause, offsetClause, stdLimitClause, hl]
    simp [SelectStatement, addSelectColumns, hErr,
          addSelectColumnsAux_self plan plan.colMap hselfAll,
          addSelectSuffix, addSelectSuffixCore, hsj, hjoins, addJoinClause,
          addWhereClause_comps plan ps hflt hres hself hne,
          hgroup, horder, groupByToksAux, addOrderByAux, hlo]

/-- Witness for C2 at the concrete two-filter plan: the WHERE clause of
the compiled SELECT has exactly two placeholder tokens, in filter
order. -/
theorem c2_select_placeholders_match_args_witness :
    countBinds (joinSepParts [Tok.str " AND "] (c2pairs.map fragToks)) = c2pairs.length := by
  obtain ⟨_, _, _, h⟩ := c2_select_placeholders_match_args c2plan c2pairs rfl
    (by
      intro m hm
      simp only [c2plan, peoplePlan, List.mem_cons, List.not_mem_nil, or_false] at hm
      rcases hm with rfl | rfl <;> rfl)
    rfl rfl rfl rfl rfl rfl
    (by
      intro p hp
      simp only [c2pairs, List.mem_cons, List.not_mem_nil, or_false] at hp
      rcases hp with rfl | rfl <;> rfl)
    (by simp [c2pairs])
  exact h

/-- C4: the chain Assign(name, "x").Where().Equal(id, 5).Update()
compiles to UPDATE "people" SET "name"=$1 WHERE "people"."id" = $2 with
argument list ["x", 5]: the assignment argument precedes the WHERE
argument, matching the textual order of their placeholders. -/
theorem c4_assign_where_update_example :
    updateStatement c4plan = .ok c4stmt ∧
    c4stmt.args = [Lit.s "x", Lit.i 5] ∧
    bindVarsFor c4plan c4stmt = ["$1", "$2"] ∧
    statementQuery c4stmt (bindVarsFor c4plan c4stmt)
      = "UPDATE \"people\" SET \"name\"=$1 WHERE \"people\".\"id\" = $2" := by
  refine ⟨?_, rfl, rfl, rfl⟩
  have hflt : c4plan.filters
      = some (MultiFilter.andRoot ([((idEntry : FieldColumnMap), "=", Lit.i 5)].map mkComp)) :=
    rfl
  have hres1 : ∀ p ∈ [((idEntry : FieldColumnMap), "=", Lit.i 5)],
      fieldMapForPointer c4plan.colMap p.1.field = .ok p.1 := by
    intro p hp
    simp only [List.mem_singleton] at hp
    subst hp
    rfl
  have hself1 : ∀ p ∈ [((idEntry : FieldColumnMap), "=", Lit.i 5)],
      p.1.selectTarget = Value.fieldPtr p.1.field := by
    intro p hp
    simp only [List.mem_singleton] at hp
    subst hp
    rfl
  have hstep : updateStatement c4plan
      = addWhereClause c4plan { query := updateSetToks c4plan, args := c4plan.assignArgs } := rfl
  rw [hstep,
      addWhereClause_comps c4plan [((idEntry : FieldColumnMap), "=", Lit.i 5)]
        hflt hres1 hself1 (by simp)
        { query := updateSetToks c4plan, args := c4plan.assignArgs }]
  rfl

end Gorq
